import Mathlib

/-!
# Verification of the language-ide Meaning-Graph analysis layer

A shallow embedding of the `language-ide` repository: the Meaning-Graph data
model (frontend `types.ts`, `LogicView.tsx`), the Chrome-extension content
script (`content.js`), the graph view's highlighting and edge styling
(`GraphView.tsx`), and — where the backend Python sources are absent from the
repository snapshot — models of the Assertion & Logic Engine, Graph Builder,
Identity Resolver, Session Accumulator and Interpreter/Plugin framework taken
from the specification's own words.
-/

namespace LanguageIde

/-- Source span of a node, as in `types.ts` (`Span`); `stop` is the
exclusive end offset (`end` in the source, renamed: `end` is a keyword). -/
structure Span where
  start : Nat
  stop : Nat
  text : String
deriving DecidableEq, Repr

/-- A Meaning-Graph node, as in `types.ts` (`Node`): id, type tag
(`Entity`/`Event`/`Claim`/`ContextFrame`/`Goal` as open strings), label,
optional span, and a string-keyed property map (embedded as an
association list). -/
structure Node where
  id : String
  type : String
  label : String
  span : Option Span
  properties : List (String × String)
deriving DecidableEq, Repr

/-- A Meaning-Graph edge, as in `types.ts` (`Edge`): source and target node
ids plus an open role string (`Agent`, `Patient`, `Cause`, `SameAs`, …). -/
structure Edge where
  source : String
  target : String
  role : String
deriving DecidableEq, Repr

/-- An atomic assertion, as in `types.ts` / `LogicView.tsx` (`Assertion`):
subject, predicate, optional object, optional condition, optional
modality.  A non-null `condition` means the assertion is conditional. -/
structure Assertion where
  subject : String
  predicate : String
  object : Option String
  condition : Option String
  modality : Option String
deriving DecidableEq, Repr

/-- A diagnostic, as in `types.ts` (`Diagnostic`): kind, severity
(`Info`/`Warning`/`Error` per the data model) and message. -/
structure Diagnostic where
  kind : String
  severity : String
  message : String
deriving DecidableEq, Repr

/-- A derived contradiction, as in `LogicView.tsx` (`Contradiction`): a type
tag, a human-readable reason, and the two conflicting assertions. -/
structure Contradiction where
  type : String
  reason : String
  assertion_1 : Assertion
  assertion_2 : Assertion
deriving DecidableEq, Repr

/-- An open question, as in `LogicView.tsx` (`OpenQuestion`): a type tag, the
phrased question and the conditional assertion it references. -/
structure OpenQuestion where
  type : String
  question : String
  assertion : Assertion
deriving DecidableEq, Repr

/-- The Meaning Graph, as in `types.ts` (`MeaningGraph`), restricted to the
fields the analysis layer computes over: nodes, edges, derived assertions
and diagnostics. -/
structure MeaningGraph where
  nodes : List Node
  edges : List Edge
  assertions : List Assertion
  diagnostics : List Diagnostic
deriving DecidableEq, Repr

/-! ## Assertion & Logic Engine (contradiction detection)

The backend engine itself (`backend/app/…`) is not part of the repository
snapshot; the definitions below are modelled from the specification. -/

/-- Modelled from the spec: the configured antonym/mutually-exclusive-state
table driving contradiction detection — a closed, hand-curated lookup of
conflicting object pairs; the spec names "live" vs "down" and "fast" vs
"slow" as its examples.  The backend module holding the concrete table is
not in the repository snapshot. -/
def antonymTable : List (String × String) :=
  [("live", "down"), ("fast", "slow")]

/-- Modelled from the spec: two object strings conflict when they form a
pair (in either order) of the configured antonym table. -/
def antonymMatch (x y : String) : Bool :=
  antonymTable.any fun p => (p.1 == x && p.2 == y) || (p.1 == y && p.2 == x)

/-- Modelled from the spec: the Assertion & Logic Engine's contradiction
test (the backend engine is not in the repository snapshot) — two
assertions contradict when they share the same resolved subject and
predicate, both are unconditional, and their objects are members of the
configured antonym table. -/
def contradicts (a b : Assertion) : Bool :=
  a.subject == b.subject && a.predicate == b.predicate &&
  a.condition.isNone && b.condition.isNone &&
  match a.object, b.object with
  | some x, some y => antonymMatch x y
  | _, _ => false

/-! ## Graph Builder and Linguistic Analyzer boundary

Modelled from the spec: the backend pipeline (`backend/app/pipeline.py`) is
not in the repository snapshot.  The Linguistic Analyzer is external and
specified only at its interface (spec §6): it returns tokens, dependency
arcs and entity mentions, may return partial results, and never fails the
caller for empty text. -/

/-- A token of the linguistic annotation: surface text and POS tag. -/
structure Token where
  text : String
  pos : String
deriving DecidableEq, Repr

/-- A dependency arc of the linguistic annotation: head and dependent token
indices plus the grammatical relation. -/
structure DepArc where
  head : Nat
  dependent : Nat
  relation : String
deriving DecidableEq, Repr

/-- The linguistic annotations for one text unit (spec §6:
`analyze(text, lang) -> {tokens[], deps[], entities[]}`); entity mentions
are kept as their surface strings. -/
structure Annotations where
  tokens : List Token
  deps : List DepArc
  entities : List String
deriving DecidableEq, Repr

/-- Split a character stream into space-separated words (accumulator holds
the current word reversed); empty input yields no words. -/
def wordsAux : List Char → List Char → List String
  | [], cur => if cur.isEmpty then [] else [String.mk cur.reverse]
  | c :: rest, cur =>
    if c == ' ' then
      (if cur.isEmpty then [] else [String.mk cur.reverse]) ++ wordsAux rest []
    else wordsAux rest (c :: cur)

/-- Whitespace tokenization of a text; the empty text yields no words. -/
def tokenizeWords (text : String) : List String :=
  wordsAux text.data []

/-- Modelled from the spec: a small closed POS lexicon standing in for the
external analyzer's tagger (the analyzer itself is out of scope and
absent); unknown words default to `NOUN`. -/
def posLexicon : List (String × String) :=
  [("awoke", "VERB"), ("found", "VERB"), ("is", "VERB"), ("be", "VERB"),
   ("fails", "VERB"), ("transformed", "VERB")]

/-- POS tag of a word, looked up in `posLexicon`. -/
def posOf (w : String) : String :=
  ((posLexicon.find? fun p => p.1 == w).map fun p => p.2).getD "NOUN"

/-- Pronoun surface forms treated as anaphoric mentions. -/
def pronounLabels : List String :=
  ["he", "she", "it", "they", "him", "her", "them"]

/-- Does the word start with an uppercase letter (a proper-noun mention)? -/
def isCapitalized (w : String) : Bool :=
  match w.data with
  | c :: _ => c.isUpper
  | [] => false

/-- Modelled from the spec: the external Linguistic Analyzer boundary —
tokens from whitespace splitting with lexicon POS tags, entity mentions
for capitalized words and pronouns, and (as a partial annotation the
builder must tolerate) no dependency arcs; empty text yields empty
annotations and never an error. -/
def analyzeLing (text : String) : Annotations :=
  let words := tokenizeWords text
  { tokens := words.map fun w => { text := w, pos := posOf w }
    deps := []
    entities := words.filter fun w => isCapitalized w || pronounLabels.contains w }

/-- Modelled from the spec: the deterministic grammatical-relation →
semantic-role mapping table (nominal-subject→Agent, direct-object→Patient,
adverbial-cause-clause→Cause); other relations pass through. -/
def roleOf (relation : String) : String :=
  if relation == "nsubj" then "Agent"
  else if relation == "dobj" then "Patient"
  else if relation == "advcl" then "Cause"
  else relation

/-- Modelled from the spec: the Graph Builder (backend pipeline, not in the
repository snapshot) — one Event node per predicate-bearing (verbal)
token, one Entity node per entity mention, and role edges from the
dependency arcs via `roleOf`; assertions and diagnostics are derived later
by other stages. -/
def buildGraph (ann : Annotations) : MeaningGraph :=
  let events := (ann.tokens.enum.filter fun p => p.2.pos == "VERB").map fun p =>
    ({ id := "ev" ++ toString p.1, type := "Event", label := p.2.text
       span := none, properties := [] } : Node)
  let entities := ann.entities.enum.map fun p =>
    ({ id := "ent" ++ toString p.1, type := "Entity", label := p.2
       span := none, properties := [] } : Node)
  let roleEdges := ann.deps.map fun d =>
    ({ source := "tok" ++ toString d.head, target := "tok" ++ toString d.dependent
       role := roleOf d.relation } : Edge)
  { nodes := events ++ entities, edges := roleEdges, assertions := [], diagnostics := [] }

/-- The empty Meaning Graph. -/
def emptyGraph : MeaningGraph :=
  { nodes := [], edges := [], assertions := [], diagnostics := [] }

/-- Modelled from the spec: one analysis request over a text — analyzer
then builder; per the error policy it degrades to an empty graph and
never fails the caller. -/
def analyzeRequest (text : String) : Except String MeaningGraph :=
  .ok (buildGraph (analyzeLing text))

/-! ## Identity Resolver

Modelled from the spec: the backend resolver is not in the repository
snapshot. -/

/-- Look up a property value on a node's property map. -/
def getProp (n : Node) (key : String) : Option String :=
  (n.properties.find? fun p => p.1 == key).map fun p => p.2

/-- Gender/number feature compatibility: two known values must agree, an
unknown value is compatible with anything. -/
def featCompat : Option String → Option String → Bool
  | some x, some y => x == y
  | _, _ => true

/-- Modelled from the spec: an earlier Entity node is a candidate
antecedent for a mention when its gender and number features are
compatible. -/
def compatibleAntecedent (m cand : Node) : Bool :=
  cand.type == "Entity"
    && featCompat (getProp m "gender") (getProp cand "gender")
    && featCompat (getProp m "number") (getProp cand "number")

/-- Modelled from the spec: the nearest-preceding compatible candidate in
the session graph wins, ties broken by recency — i.e. the last compatible
node in creation order; if none exists the mention stays its own node. -/
def findAntecedent (prior : List Node) (m : Node) : Option Node :=
  (prior.filter (compatibleAntecedent m)).getLast?

/-- Modelled from the spec: the Identity Resolver connects a resolved
mention to its antecedent with a single `SameAs` edge, or produces no edge
when no compatible candidate exists. -/
def resolveIdentity (prior : List Node) (m : Node) : List Edge :=
  match findAntecedent prior m with
  | some c => [{ source := m.id, target := c.id, role := "SameAs" }]
  | none => []

/-- Modelled from the spec: folding one resolved mention into the unified
graph — the mention node and its identity edge are appended, no node is
deleted or collapsed. -/
def resolveAndExtend (g : MeaningGraph) (m : Node) : MeaningGraph :=
  { g with nodes := g.nodes ++ [m], edges := g.edges ++ resolveIdentity g.nodes m }

/-- A concrete antecedent node for exercising the resolver. -/
def gregorNode : Node :=
  { id := "n1", type := "Entity", label := "Gregor", span := none
    properties := [("gender", "masc")] }

/-- A concrete pronoun mention node for exercising the resolver. -/
def heNode : Node :=
  { id := "n2", type := "Entity", label := "he", span := none
    properties := [("gender", "masc")] }

/-! ## Session Accumulator

Modelled from the spec: the backend session layer is not in the repository
snapshot. -/

/-- One turn of a session's ordered history (spec §3: `[{text, doc_id}]`). -/
structure Turn where
  text : String
  doc_id : String
deriving DecidableEq, Repr

/-- A session: the ordered turn history plus the accumulating unified
graph. -/
structure Session where
  history : List Turn
  graph : MeaningGraph
deriving DecidableEq, Repr

/-- The fresh session: empty history, empty graph. -/
def emptySession : Session :=
  { history := [], graph := emptyGraph }

/-- Is a node an anaphoric (pronoun) mention? -/
def isAnaphoric (n : Node) : Bool :=
  pronounLabels.contains n.label

/-- Modelled from the spec: ingesting one turn — the Graph Builder runs on
the turn's annotations, the new nodes and edges get ids qualified by the
turn's doc id (session-global uniqueness), the Identity Resolver links the
turn's anaphoric mentions to prior nodes with `SameAs` edges, and
everything is appended to the session's unified graph; nothing previously
emitted is removed or rewritten. -/
def ingestTurn (s : Session) (text docId : String) : Session :=
  let g := buildGraph (analyzeLing text)
  let ns := g.nodes.map fun n => { n with id := docId ++ ":" ++ n.id }
  let es := g.edges.map fun e =>
    { e with source := docId ++ ":" ++ e.source, target := docId ++ ":" ++ e.target }
  let sameAs := (ns.filter isAnaphoric).flatMap fun n => resolveIdentity s.graph.nodes n
  { history := s.history ++ [{ text := text, doc_id := docId }]
    graph := { nodes := s.graph.nodes ++ ns
               edges := s.graph.edges ++ (es ++ sameAs)
               assertions := s.graph.assertions
               diagnostics := s.graph.diagnostics } }

/-! ## Assertion & Logic Engine (open-question detection)

Modelled from the spec: the backend engine is not in the repository
snapshot. -/

/-- Modelled from the spec: open-question detection — every assertion whose
`condition` is non-null becomes one OpenQuestion, phrased from the
condition and the unverified consequent, referencing that assertion. -/
def openQuestions (asserts : List Assertion) : List OpenQuestion :=
  (asserts.filter fun a => a.condition.isSome).map fun a =>
    { type := "open_question"
      question := "If " ++ a.condition.getD "" ++ ", is it then true that "
        ++ a.subject ++ " " ++ a.predicate ++ " " ++ (a.object.getD "") ++ "?"
      assertion := a }

/-- Modelled from the spec scenario: analyzing
`"If the disk fails, data is lost."` extracts one conditional assertion
(the consequent guarded by the if-clause); the extracting backend pipeline
is not in the repository snapshot. -/
def diskScenarioAssertions : List Assertion :=
  [{ subject := "data", predicate := "be", object := some "lost"
     condition := some "the disk fails", modality := none }]

/-! ## Extension content script: diagnostic grouping

Embedded from `displayDiagnostics` in the content script
(`src/unnamed/part_000`): the inline warning box groups the diagnostics by
comparing `d.severity` against the lowercase strings. -/

/-- The `errors` group of `displayDiagnostics`: `diagnostics.filter(d =>
d.severity === 'error')` — note the lowercase comparison string. -/
def lideErrors (ds : List Diagnostic) : List Diagnostic :=
  ds.filter fun d => d.severity == "error"

/-- The `warnings` group of `displayDiagnostics`: `diagnostics.filter(d =>
d.severity === 'warning')` — note the lowercase comparison string. -/
def lideWarnings (ds : List Diagnostic) : List Diagnostic :=
  ds.filter fun d => d.severity == "warning"

/-- The severity vocabulary of the data model (`types.ts`:
`severity: "Info" | "Warning" | "Error"`; spec §3). -/
def validSeverities : List String := ["Info", "Warning", "Error"]

/-! ## Graph view: contradiction highlighting and SameAs styling

Embedded from `GraphView.tsx`. -/

/-- Does the character list `hay` start with `needle`? (Helper for the
JavaScript substring test.) -/
def charsStartWith : List Char → List Char → Bool
  | _, [] => true
  | [], _ :: _ => false
  | h :: t, nh :: nt => h == nh && charsStartWith t nt

/-- Does `needle` occur contiguously anywhere in `hay`? (Helper for the
JavaScript substring test; true for an empty needle.) -/
def charsContain : List Char → List Char → Bool
  | [], needle => needle.isEmpty
  | h :: t, needle => charsStartWith (h :: t) needle || charsContain t needle

/-- JavaScript `hay.includes(needle)`: substring test, true for the empty
needle. -/
def strIncludes (hay needle : String) : Bool :=
  charsContain hay.data needle.data

/-- Embedded from `GraphView.tsx` (`elements`): a node is put in the
contradiction highlight style exactly when some diagnostic has
`kind === 'Contradiction'` and `message.includes(n.label)`. -/
def isContradictionHighlighted (g : MeaningGraph) (n : Node) : Bool :=
  g.diagnostics.any fun d => d.kind == "Contradiction" && strIncludes d.message n.label

/-- Embedded from the `GraphView.tsx` stylesheet: the dashed identity-edge
style has selector `edge[label="SameAs"]`, and `elements` sets each edge's
rendered label to its `role` — so the style matches an edge exactly when
its role string is `SameAs`. -/
def matchesSameAsStyle (e : Edge) : Bool :=
  e.role == "SameAs"

/-- A contradiction diagnostic as in the spec scenario, for exercising the
highlight rule on a concrete graph. -/
def serverContradictionDiag : Diagnostic :=
  { kind := "Contradiction", severity := "Warning"
    message := "Contradiction detected: server be live vs server be down" }

/-- A node that does not participate in the server contradiction but whose
label occurs inside the diagnostic message as a substring. -/
def bystanderNode : Node :=
  { id := "n9", type := "Entity", label := "detect", span := none, properties := [] }

/-! ## Interpreter / Plugin framework

Modelled from the spec: the backend interpreters and plugin registry are
not in the repository snapshot. -/

/-- A successful plugin run's return value (spec §4.4 / §6:
`run(graph, context) -> {diagnostics?, graph_updates?}`); a graph update
is a patch of nodes and edges to append. -/
structure PluginResult where
  diagnostics : List Diagnostic
  graph_updates : List Node × List Edge

/-- The outcome of calling a plugin: a result, or a raised exception. -/
inductive PluginOutcome where
  | ok (r : PluginResult)
  | err (msg : String)

/-- A registered plugin: its name and its `run` entry point. -/
structure Plugin where
  name : String
  run : MeaningGraph → PluginOutcome

/-- Modelled from the spec: the single Error-severity diagnostic naming a
plugin whose call raised. -/
def pluginFailureDiag (name : String) : Diagnostic :=
  { kind := "PluginFailure", severity := "Error"
    message := "Plugin " ++ name ++ " failed" }

/-- Modelled from the spec: the Truth-mode plugin chain — plugins run
sequentially in registration order; a plugin that raises contributes one
failure diagnostic and its graph updates are discarded, while the
remaining plugins still run. Returns the collected diagnostics and the
retained graph-update patches. -/
def runPluginChain (g : MeaningGraph) : List Plugin → List Diagnostic × List (List Node × List Edge)
  | [] => ([], [])
  | p :: rest =>
    match p.run g with
    | .ok r =>
      (r.diagnostics ++ (runPluginChain g rest).1,
       r.graph_updates :: (runPluginChain g rest).2)
    | .err _ =>
      (pluginFailureDiag p.name :: (runPluginChain g rest).1,
       (runPluginChain g rest).2)

/-- Apply one retained graph-update patch (append its nodes and edges). -/
def applyUpdate (g : MeaningGraph) (u : List Node × List Edge) : MeaningGraph :=
  { g with nodes := g.nodes ++ u.1, edges := g.edges ++ u.2 }

/-- Modelled from the spec: Truth mode — run the plugin chain, apply the
retained patches atomically after all plugins finish, and merge the
collected diagnostics into the response. -/
def truthMode (g : MeaningGraph) (plugins : List Plugin) : MeaningGraph :=
  let res := runPluginChain g plugins
  let g2 := res.2.foldl applyUpdate g
  { g2 with diagnostics := g2.diagnostics ++ res.1 }

/-- A concrete well-behaved plugin contributing one diagnostic. -/
def okPluginA : Plugin :=
  { name := "continuity"
    run := fun _ => .ok { diagnostics := [⟨"Continuity", "Info", "ok"⟩]
                          graph_updates := ([], []) } }

/-- A second concrete well-behaved plugin contributing one diagnostic. -/
def okPluginB : Plugin :=
  { name := "plausibility"
    run := fun _ => .ok { diagnostics := [⟨"Plausibility", "Warning", "check"⟩]
                          graph_updates := ([], []) } }

/-- A concrete plugin that raises on every call. -/
def crasherPlugin : Plugin :=
  { name := "crasher", run := fun _ => .err "boom" }

/-! ## Fiction mode

Modelled from the spec: the backend `FictionInterpreter` is not in the
repository snapshot. -/

/-- A scoping context frame (spec §3): id, kind
(`RealWorld`/`Fiction`/`Hypothetical`, …) and source document. -/
structure ContextFrame where
  frame_id : String
  kind : String
  source_doc : String
deriving DecidableEq, Repr

/-- The raw analysis output an interpreter post-processes: the graph and
the derived contradictions. -/
structure AnalysisResponse where
  graph : MeaningGraph
  contradictions : List Contradiction
deriving DecidableEq, Repr

/-- Modelled from the spec: Map mode surfaces each contradiction as a
Warning-severity Contradiction-kind diagnostic. -/
def mapDiagnostic (c : Contradiction) : Diagnostic :=
  { kind := "Contradiction", severity := "Warning", message := c.reason }

/-- Modelled from the spec: Fiction mode's diagnostic for one
contradiction, given the frame each assertion attaches to (`fk`; spec §3:
every assertion attaches to exactly one ContextFrame) — downgraded to
Info/`"Narrative"` when both frames are non-RealWorld, otherwise the Map
diagnostic unchanged. -/
def fictionDiagnostic (fk : Assertion → ContextFrame) (c : Contradiction) : Diagnostic :=
  if (fk c.assertion_1).kind != "RealWorld" && (fk c.assertion_2).kind != "RealWorld"
  then { kind := "Narrative", severity := "Info", message := c.reason }
  else mapDiagnostic c

/-- Modelled from the spec: Map mode — identity transform, diagnostics pass
through with contradictions appended as Warnings. -/
def mapMode (r : AnalysisResponse) : MeaningGraph :=
  { r.graph with diagnostics := r.graph.diagnostics ++ r.contradictions.map mapDiagnostic }

/-- Modelled from the spec: Fiction mode — the same graph as Map mode, with
only the qualifying Contradiction diagnostics relabeled. -/
def fictionMode (fk : Assertion → ContextFrame) (r : AnalysisResponse) : MeaningGraph :=
  { r.graph with
    diagnostics := r.graph.diagnostics ++ r.contradictions.map (fictionDiagnostic fk) }

/-- A fiction context frame for the concrete scenario. -/
def fictionFrame : ContextFrame :=
  { frame_id := "f1", kind := "Fiction", source_doc := "doc1" }

/-- Frame attachment for the concrete scenario: every assertion sits in the
fiction frame. -/
def fkFiction : Assertion → ContextFrame :=
  fun _ => fictionFrame

/-- The spec scenario's contradiction: `"The server is live."` versus
`"The server is down."`. -/
def serverContradiction : Contradiction :=
  { type := "contradiction"
    reason := "Conflicting states for server: live vs down"
    assertion_1 := { subject := "server", predicate := "be", object := some "live"
                     condition := none, modality := none }
    assertion_2 := { subject := "server", predicate := "be", object := some "down"
                     condition := none, modality := none } }

/-- A concrete analysis response holding only the server contradiction. -/
def serverResponse : AnalysisResponse :=
  { graph := emptyGraph, contradictions := [serverContradiction] }

/-! ## Extension content script: message processing

Embedded from `processMessage` in the content script
(`src/unnamed/part_000`). -/

/-- JavaScript `String.prototype.trim` on a character list: drop leading
and trailing whitespace. -/
def trimChars (cs : List Char) : List Char :=
  ((cs.dropWhile fun c => c.isWhitespace).reverse.dropWhile fun c => c.isWhitespace).reverse

/-- JavaScript `raw.trim()`. -/
def jsTrim (raw : String) : String :=
  String.mk (trimChars raw.data)

/-- The content script's page-level state: the `isMonitoring` flag and the
`processedMessages` set (embedded as a list of texts). -/
structure ContentState where
  monitoring : Bool
  processed : List String
deriving DecidableEq, Repr

/-- An event the content script reacts to: a start/stop-monitoring message
from the popup, or a message element observed in the page. -/
inductive PageEvent where
  | setMonitoring (b : Bool)
  | message (raw : String)
deriving DecidableEq, Repr

/-- Embedded from `processMessage` in the content script: bail out when
monitoring is off; trim the element text; bail out when it is empty or
already in `processedMessages`; otherwise record it and call
`analyzeMessage` (the returned `Option` is the text sent to the backend,
`none` when no call is made). -/
def processMessage (st : ContentState) (raw : String) : ContentState × Option String :=
  if st.monitoring then
    let text := jsTrim raw
    if text == "" || st.processed.contains text then (st, none)
    else ({ st with processed := st.processed ++ [text] }, some text)
  else (st, none)

/-- One page load: fold the content script over its events, collecting the
texts for which `analyzeMessage` was invoked. -/
def runPage (st : ContentState) : List PageEvent → ContentState × List String
  | [] => (st, [])
  | PageEvent.setMonitoring b :: es => runPage { st with monitoring := b } es
  | PageEvent.message raw :: es =>
    match processMessage st raw with
    | (st', none) => runPage st' es
    | (st', some t) => ((runPage st' es).1, t :: (runPage st' es).2)

theorem any_swap_pair (l : List (String × String)) (x y : String) :
    (l.any fun p => (p.1 == x && p.2 == y) || (p.1 == y && p.2 == x))
      = (l.any fun p => (p.1 == y && p.2 == x) || (p.1 == x && p.2 == y)) := by
  induction l with
  | nil => rfl
  | cons h t ih => simp [List.any_cons, ih, Bool.or_comm, Bool.or_assoc, Bool.or_left_comm]

theorem antonymMatch_comm (x y : String) : antonymMatch x y = antonymMatch y x :=
  any_swap_pair antonymTable x y

/-- C1: contradiction detection is symmetric — the engine reports that `a`
contradicts `b` exactly when it reports that `b` contradicts `a`, where two
assertions conflict precisely when they share subject and predicate, both
are unconditional, and their objects are an antonym-table pair. -/
theorem contradicts_symm (a b : Assertion) : contradicts a b = contradicts b a := by
  unfold contradicts
  cases ha : a.object <;> cases hb : b.object <;>
    simp [antonymMatch_comm, Bool.and_comm, Bool.and_assoc, Bool.and_left_comm,
      BEq.comm]

/-- C2: the OpenQuestions are in one-to-one correspondence with the
assertions whose condition is non-null — mapping each OpenQuestion to the
assertion it references yields exactly the conditional assertions, every
OpenQuestion references a conditional assertion, and the
`"If the disk fails, data is lost."` scenario yields exactly one
conditional assertion and exactly one OpenQuestion referencing it. -/
theorem openQuestions_one_to_one (asserts : List Assertion) :
    ((openQuestions asserts).map (fun q => q.assertion)
        = asserts.filter fun a => a.condition.isSome)
    ∧ ((openQuestions asserts).all fun q => q.assertion.condition.isSome) = true
    ∧ (diskScenarioAssertions.filter fun a => a.condition.isSome).length = 1
    ∧ (openQuestions diskScenarioAssertions).length = 1
    ∧ (openQuestions diskScenarioAssertions).map (fun q => q.assertion)
        = diskScenarioAssertions := by
  refine ⟨?_, ?_, by decide, by decide, by decide⟩
  · unfold openQuestions
    generalize (asserts.filter fun a => a.condition.isSome) = l
    induction l with
    | nil => rfl
    | cons h t ih => simp [List.map_cons, ih]
  · simp only [openQuestions, List.all_eq_true, List.mem_map, List.mem_filter]
    rintro q ⟨a, ⟨_, ha⟩, rfl⟩
    exact ha

/-- C7 (code evaluation at the failing input): the data model's severity
vocabulary contains the capitalized strings `"Error"` and `"Warning"`, yet
`displayDiagnostics` compares severities against lowercase `'error'` /
`'warning'`, so a diagnostic carrying a valid `"Error"` or `"Warning"`
severity lands in neither rendered group of the inline warning box. -/
theorem displayDiagnostics_drops_valid_severities :
    validSeverities.contains "Error" = true
    ∧ validSeverities.contains "Warning" = true
    ∧ lideErrors [⟨"Contradiction", "Error", "server be live vs server be down"⟩] = []
    ∧ lideWarnings [⟨"Ambiguity", "Warning", "Vague term"⟩] = [] := by
  decide

/-- C10: in `GraphView`, a node gets the contradiction highlight style if
and only if some diagnostic has kind exactly `"Contradiction"` and a
message containing the node's label as a substring; in particular a node
whose label merely occurs inside a contradiction message — here the label
`"detect"` inside `"Contradiction detected: …"` — is flagged even though it
does not participate in the contradiction. -/
theorem contradiction_highlight_iff (g : MeaningGraph) (n : Node) :
    (isContradictionHighlighted g n = true
      ↔ ∃ d ∈ g.diagnostics, d.kind = "Contradiction"
          ∧ strIncludes d.message n.label = true)
    ∧ isContradictionHighlighted
        { nodes := [bystanderNode], edges := [], assertions := []
          diagnostics := [serverContradictionDiag] } bystanderNode = true := by
  constructor
  · simp [isContradictionHighlighted, List.any_eq_true, Bool.and_eq_true]
  · decide

/-- C3: analyzing the empty string yields the empty graph — no nodes, no
edges, zero assertions, zero diagnostics — with no error raised; more
generally every input text produces an `ok` graph (the request never fails
the caller), and the builder maps empty/partial annotations to the empty
graph. -/
theorem empty_input_empty_graph :
    analyzeRequest "" = Except.ok emptyGraph
    ∧ (∀ text, ∃ g, analyzeRequest text = Except.ok g)
    ∧ buildGraph { tokens := [], deps := [], entities := [] } = emptyGraph := by
  exact ⟨rfl, fun text => ⟨_, rfl⟩, rfl⟩

/-- C4: turn ingestion is append-only — the session graph after a turn is
the prior nodes and edges with the turn's contribution appended, so every
node present after ingesting turn N (including every node that turn
introduced) is still present, unmodified, after ingesting turn N+1. -/
theorem ingest_append_only (s : Session) (t1 d1 t2 d2 : String) :
    (∃ added, (ingestTurn s t1 d1).graph.nodes = s.graph.nodes ++ added)
    ∧ (∃ added, (ingestTurn s t1 d1).graph.edges = s.graph.edges ++ added)
    ∧ ∀ n ∈ (ingestTurn s t1 d1).graph.nodes,
        n ∈ (ingestTurn (ingestTurn s t1 d1) t2 d2).graph.nodes := by
  refine ⟨⟨_, rfl⟩, ⟨_, rfl⟩, fun n hn => ?_⟩
  exact List.mem_append_left _ hn

/-- Witness for C4: a concrete two-turn session — the Event node created by
turn 1 (`"Gregor awoke"`) is still present after ingesting turn 2. -/
theorem ingest_append_only_witness :
    ({ id := "t1:ev1", type := "Event", label := "awoke", span := none
       properties := [] } : Node)
      ∈ (ingestTurn (ingestTurn emptySession "Gregor awoke" "t1") "he found" "t2").graph.nodes :=
  (ingest_append_only emptySession "Gregor awoke" "t1" "he found" "t2").2.2 _ (by decide)

/-- C8: every identity link the resolver produces is an edge whose role
string is exactly `"SameAs"` — the label the graph view's SameAs edge
style matches — pointing from the mention to an existing prior node, and
folding a resolved mention into the graph keeps every existing node (no
deletion or collapsing). -/
theorem resolver_sameAs_edges (prior : List Node) (m : Node) (g : MeaningGraph) :
    (∀ e ∈ resolveIdentity prior m,
      e.role = "SameAs" ∧ matchesSameAsStyle e = true ∧ e.source = m.id
        ∧ ∃ c ∈ prior, e.target = c.id)
    ∧ (resolveAndExtend g m).nodes = g.nodes ++ [m] := by
  refine ⟨fun e he => ?_, rfl⟩
  unfold resolveIdentity at he
  cases hf : findAntecedent prior m with
  | none => rw [hf] at he; cases he
  | some c =>
    rw [hf] at he
    cases he with
    | head =>
      refine ⟨rfl, rfl, rfl, c, ?_, rfl⟩
      have hc : c ∈ prior.filter (compatibleAntecedent m) :=
        List.mem_of_getLast?_eq_some hf
      exact (List.mem_filter.mp hc).1
    | tail _ h => cases h

/-- Witness for C8: resolving the pronoun node `"he"` against a session
containing the `"Gregor"` entity yields exactly the SameAs edge
`n2 → n1`, which the graph view's SameAs style matches. -/
theorem resolver_sameAs_edges_witness :
    ({ source := "n2", target := "n1", role := "SameAs" } : Edge).role = "SameAs"
    ∧ matchesSameAsStyle { source := "n2", target := "n1", role := "SameAs" } = true
    ∧ ({ source := "n2", target := "n1", role := "SameAs" } : Edge).source = heNode.id
    ∧ ∃ c ∈ [gregorNode],
        ({ source := "n2", target := "n1", role := "SameAs" } : Edge).target = c.id :=
  (resolver_sameAs_edges [gregorNode] heNode emptyGraph).1 _ (by decide)

theorem runPluginChain_append (g : MeaningGraph) (l1 l2 : List Plugin) :
    runPluginChain g (l1 ++ l2)
      = ((runPluginChain g l1).1 ++ (runPluginChain g l2).1,
         (runPluginChain g l1).2 ++ (runPluginChain g l2).2) := by
  induction l1 with
  | nil => simp [runPluginChain]
  | cons p t ih =>
    simp only [List.cons_append, runPluginChain]
    cases p.run g <;> simp [ih]

/-- C5: plugin isolation in Truth mode — with a plugin that raises on every
call in the middle of the chain, the response diagnostics are exactly the
preceding plugins' diagnostics, one Error-severity diagnostic naming the
failed plugin, and the remaining plugins' diagnostics; the failed plugin's
graph updates are discarded, so the Truth-mode graph's nodes and edges are
the same as if the failing plugin were not registered at all. -/
theorem plugin_isolation (g : MeaningGraph) (pre post : List Plugin) (bad : Plugin)
    (msg : String) (h : ∀ g', bad.run g' = .err msg) :
    (runPluginChain g (pre ++ bad :: post)).1
      = (runPluginChain g pre).1
          ++ pluginFailureDiag bad.name :: (runPluginChain g post).1
    ∧ (runPluginChain g (pre ++ bad :: post)).2
      = (runPluginChain g pre).2 ++ (runPluginChain g post).2
    ∧ (pluginFailureDiag bad.name).severity = "Error"
    ∧ (truthMode g (pre ++ bad :: post)).nodes = (truthMode g (pre ++ post)).nodes
    ∧ (truthMode g (pre ++ bad :: post)).edges = (truthMode g (pre ++ post)).edges := by
  have hbad : runPluginChain g (bad :: post)
      = (pluginFailureDiag bad.name :: (runPluginChain g post).1,
         (runPluginChain g post).2) := by
    simp [runPluginChain, h g]
  have h1 := runPluginChain_append g pre (bad :: post)
  rw [hbad] at h1
  have h2 := runPluginChain_append g pre post
  refine ⟨?_, ?_, rfl, ?_, ?_⟩ <;> simp [truthMode, h1, h2]

/-- Witness for C5: a concrete chain `[continuity, crasher, plausibility]`
where the middle plugin raises on every call — both well-behaved plugins'
diagnostics survive, the crasher contributes exactly its Error diagnostic,
and its updates are dropped. -/
theorem plugin_isolation_witness :
    (runPluginChain emptyGraph ([okPluginA] ++ crasherPlugin :: [okPluginB])).1
      = (runPluginChain emptyGraph [okPluginA]).1
          ++ pluginFailureDiag crasherPlugin.name
            :: (runPluginChain emptyGraph [okPluginB]).1
    ∧ (runPluginChain emptyGraph ([okPluginA] ++ crasherPlugin :: [okPluginB])).2
      = (runPluginChain emptyGraph [okPluginA]).2
          ++ (runPluginChain emptyGraph [okPluginB]).2
    ∧ (pluginFailureDiag crasherPlugin.name).severity = "Error"
    ∧ (truthMode emptyGraph ([okPluginA] ++ crasherPlugin :: [okPluginB])).nodes
        = (truthMode emptyGraph ([okPluginA] ++ [okPluginB])).nodes
    ∧ (truthMode emptyGraph ([okPluginA] ++ crasherPlugin :: [okPluginB])).edges
        = (truthMode emptyGraph ([okPluginA] ++ [okPluginB])).edges :=
  plugin_isolation emptyGraph [okPluginA] [okPluginB] crasherPlugin "boom" (fun _ => rfl)

/-- C6: under Fiction mode the graph's nodes and edges are the same as
under Map mode; a Contradiction whose two assertions both attach to a
non-RealWorld frame is reported as severity Info with kind relabeled
`"Narrative"`, every other contradiction keeps its Map-mode Warning
diagnostic, and the pre-existing diagnostics pass through unchanged. -/
theorem fiction_mode_narrative (fk : Assertion → ContextFrame) (r : AnalysisResponse) :
    (fictionMode fk r).nodes = (mapMode r).nodes
    ∧ (fictionMode fk r).edges = (mapMode r).edges
    ∧ (fictionMode fk r).diagnostics
        = r.graph.diagnostics ++ r.contradictions.map (fictionDiagnostic fk)
    ∧ ∀ c ∈ r.contradictions,
        (((fk c.assertion_1).kind != "RealWorld"
            && (fk c.assertion_2).kind != "RealWorld") = true →
          fictionDiagnostic fk c
            = { kind := "Narrative", severity := "Info", message := c.reason })
        ∧ (((fk c.assertion_1).kind != "RealWorld"
            && (fk c.assertion_2).kind != "RealWorld") = false →
          fictionDiagnostic fk c = mapDiagnostic c) := by
  refine ⟨rfl, rfl, rfl, fun c _ => ⟨fun hc => ?_, fun hc => ?_⟩⟩
  · simp [fictionDiagnostic, hc]
  · simp [fictionDiagnostic, hc]

/-- Witness for C6: the server live/down contradiction with both assertions
attached to a Fiction frame is relabeled to the Narrative/Info
diagnostic. -/
theorem fiction_mode_narrative_witness :
    fictionDiagnostic fkFiction serverContradiction
      = { kind := "Narrative", severity := "Info"
          message := serverContradiction.reason } :=
  (((fiction_mode_narrative fkFiction serverResponse).2.2.2
      serverContradiction (by decide)).1) (by decide)

theorem processMessage_none_state {st st' : ContentState} {raw : String}
    (h : processMessage st raw = (st', none)) : st' = st := by
  by_cases hm : st.monitoring = true
  · by_cases hc : jsTrim raw = "" ∨ jsTrim raw ∈ st.processed
    · simp [processMessage, hm, hc] at h
      exact h.symm
    · simp [processMessage, hm, hc] at h
  · simp [processMessage, hm] at h
    exact h.symm

theorem processMessage_some_eq {st st' : ContentState} {raw t : String}
    (h : processMessage st raw = (st', some t)) :
    st.monitoring = true ∧ t = jsTrim raw
    ∧ ¬(jsTrim raw = "" ∨ jsTrim raw ∈ st.processed)
    ∧ st'.processed = st.processed ++ [jsTrim raw] := by
  by_cases hm : st.monitoring = true
  · by_cases hc : jsTrim raw = "" ∨ jsTrim raw ∈ st.processed
    · simp [processMessage, hm, hc] at h
    · simp [processMessage, hm, hc] at h
      exact ⟨hm, h.2.symm, hc, (congrArg ContentState.processed h.1).symm⟩
  · simp [processMessage, hm] at h

theorem runPage_calls_spec (es : List PageEvent) : ∀ st : ContentState,
    (runPage st es).2.Nodup
    ∧ ∀ c ∈ (runPage st es).2, st.processed.contains c = false := by
  induction es with
  | nil => intro st; simp [runPage]
  | cons e es ih =>
    intro st
    cases e with
    | setMonitoring b => simpa [runPage] using ih { st with monitoring := b }
    | message raw =>
      cases hpm : processMessage st raw with
      | mk st1 o =>
        cases o with
        | none =>
          have hst : st1 = st := processMessage_none_state hpm
          simpa [runPage, hpm, hst] using ih st
        | some t =>
          obtain ⟨hm, ht, hg, hst⟩ := processMessage_some_eq hpm
          obtain ⟨ihn, ihf⟩ := ih st1
          have hfresh : ∀ c ∈ (runPage st1 es).2, st.processed.contains c = false := by
            intro c hc
            have hc1 := ihf c hc
            rw [hst] at hc1
            simp only [List.contains, List.elem_eq_mem, decide_eq_false_iff_not,
              List.mem_append] at hc1 ⊢
            exact fun hmem => hc1 (Or.inl hmem)
          have hnotmem : t ∉ (runPage st1 es).2 := by
            intro hmem
            have hc1 := ihf t hmem
            rw [hst, ht] at hc1
            simp [List.contains, List.elem_eq_mem] at hc1
          constructor
          · simp only [runPage, hpm]
            exact List.nodup_cons.mpr ⟨hnotmem, ihn⟩
          · simp only [runPage, hpm]
            intro c hc
            rcases List.mem_cons.mp hc with rfl | hc'
            · rw [ht]
              simp only [List.contains, List.elem_eq_mem, decide_eq_false_iff_not]
              exact fun hmem => hg (Or.inr hmem)
            · exact hfresh c hc'

/-- C9: the content script invokes the backend analysis at most once per
message text per page load — over any event sequence starting from a fresh
`processedMessages` set, each text is sent to `analyzeMessage` at most
once; `processMessage` returns without analyzing when monitoring is off or
when the trimmed text is empty or already processed, and it records the
trimmed text exactly when it analyzes it. -/
theorem process_message_at_most_once (b : Bool) (es : List PageEvent) (t : String) :
    (runPage { monitoring := b, processed := [] } es).2.count t ≤ 1
    ∧ (∀ st raw, st.monitoring = false → processMessage st raw = (st, none))
    ∧ (∀ st raw, st.monitoring = true →
        (jsTrim raw == "" || st.processed.contains (jsTrim raw)) = true →
        processMessage st raw = (st, none))
    ∧ (∀ st raw st' t', processMessage st raw = (st', some t') →
        t' = jsTrim raw ∧ st'.processed = st.processed ++ [t']) := by
  refine ⟨?_, ?_, ?_, ?_⟩
  · exact List.nodup_iff_count_le_one.mp
      (runPage_calls_spec es { monitoring := b, processed := [] }).1 t
  · intro st raw h; simp [processMessage, h]
  · intro st raw h hg
    have hg' : jsTrim raw = "" ∨ jsTrim raw ∈ st.processed := by simpa using hg
    simp [processMessage, h, hg']
  · intro st raw st' t' h
    obtain ⟨_, ht, _, hst⟩ := processMessage_some_eq h
    exact ⟨ht, by rw [hst, ht]⟩

/-- Witness for C9: a page load that observes the same message text twice
analyzes it at most once; a disabled-monitoring state, an
already-processed text, and a fresh text each behave as stated. -/
theorem process_message_at_most_once_witness :
    (runPage { monitoring := true, processed := [] }
        [PageEvent.message "deploy", PageEvent.message "deploy"]).2.count "deploy" ≤ 1
    ∧ processMessage { monitoring := false, processed := [] } "deploy"
        = ({ monitoring := false, processed := [] }, none)
    ∧ processMessage { monitoring := true, processed := ["deploy"] } "deploy"
        = ({ monitoring := true, processed := ["deploy"] }, none)
    ∧ ("deploy" = jsTrim "deploy"
        ∧ ({ monitoring := true, processed := ["deploy"] } : ContentState).processed
            = ({ monitoring := true, processed := [] } : ContentState).processed
                ++ ["deploy"]) := by
  have h := process_message_at_most_once true
    [PageEvent.message "deploy", PageEvent.message "deploy"] "deploy"
  exact ⟨h.1, h.2.1 _ "deploy" rfl, h.2.2.1 _ "deploy" rfl (by decide),
    h.2.2.2 { monitoring := true, processed := [] } "deploy"
      { monitoring := true, processed := ["deploy"] } "deploy" (by decide)⟩

end LanguageIde
